import Mathlib

/-!
# go-toolkit: remote configuration loader, S3 wrapper and database factory

A shallow embedding of `config/config.go`, `config/providers/firestore.go`,
`aws/s3/s3.go` and `db/db.go`.

The Go code is sequential glue around third-party libraries (the Firestore client,
`encoding/json`, viper, the AWS SDK, `path/filepath`, gorm, zap).  What those libraries answer
is taken as data (`Libs`, `SnapResult`, `Fs`, `DBLibs`); what the repository's own functions do with the
answers is translated statement by statement.  Side effects are recorded in a trace, and a Go
call ends in one of three ways: it returns nil, it returns an error, or it panics.
-/

namespace GoToolkit

/-! ## Data model -/

/-- Go `error` values, identified by their message. -/
abbrev Error := String

/-- A field value of a configuration document.  `nan` is a double field holding NaN, a value
Firestore stores and `encoding/json` refuses to encode. -/
inductive Value
  | str (s : String)
  | bool (b : Bool)
  | nan
deriving DecidableEq, Repr

/-- The fields of one document: `map[string]interface{}`, as key/value pairs. -/
abbrev ConfigDocument := List (String × Value)

/-- Go `*firestore.DocumentSnapshot`, seen through `snap.Data()`: `none` is the nil map the
snapshot of a document that does not exist reports. -/
structure DocumentSnapshot where
  data : Option ConfigDocument
deriving DecidableEq, Repr

/-- The pair `(*DocumentSnapshot, error)` that `Get` and `Next` return; `snap = none` is the
nil pointer. -/
structure SnapResult where
  snap : Option DocumentSnapshot
  err : Option Error
deriving DecidableEq, Repr

/-- The bytes `json.Marshal` produced, represented by the value they encode (`none` is the
text `null`). -/
structure JsonData where
  value : Option ConfigDocument
deriving DecidableEq, Repr

/-- Go `*firestore.Client`: the client of one project. -/
structure Client where
  projectID : String
deriving DecidableEq, Repr

/-- Go `providers.FirestoreProvider`; a nil `*FirestoreProvider` is `none : Option _`. -/
structure FirestoreProvider where
  client : Client
deriving DecidableEq, Repr

/-- Go `config.Options`. -/
structure Options where
  ProjectID : String
  ServiceName : String
  Environment : String
  Persistent : Bool
deriving DecidableEq, Repr

/-- The answers of the libraries the configuration code calls. -/
structure Libs where
  /-- The error of `firestore.NewClient(ctx, projectId)`, if any. -/
  newClient : String → Option Error
  /-- Answer of `client.Doc(path).Get(ctx)`. -/
  docGet : Client → String → SnapResult
  /-- The error of `json.Marshal(snap.Data())`, if any. -/
  marshalErr : Option ConfigDocument → Option Error
  /-- The error of `viper.ReadConfig` on the encoded document, if any. -/
  readConfigErr : JsonData → Option Error

/-- Modelled from the spec: the state of the global viper instance (third-party code, absent
from the sources).  `config` is the Configuration Store's document-derived view;
`configType` and `automaticEnv` record `SetConfigType` and `AutomaticEnv`. -/
structure Viper where
  configType : String
  automaticEnv : Bool
  config : ConfigDocument
deriving DecidableEq, Repr

/-- What the process did, in order. -/
inductive Effect
  | get (path : String)
  | merge (doc : ConfigDocument)
  | goWatch (f : Option FirestoreProvider) (path : String)
  | subscribe (path : String)
  | stop
  | logFatal (e : Error)
deriving DecidableEq, Repr

/-- The process state the configuration code acts on: the viper instance and the trace. -/
structure Proc where
  viper : Viper
  trace : List Effect
deriving DecidableEq, Repr

/-- How a call of a Go function returning `error` ends. -/
inductive Ret
  | nil
  | err (e : Error)
  | panic
deriving DecidableEq, Repr

/-- How far `WatchFirestoreConfig` got on the events it was given: still blocked in `Next`,
the process exited through `log.Fatalln`, or the goroutine panicked. -/
inductive LoopEnd
  | waiting
  | exited (e : Error)
  | panicked
deriving DecidableEq, Repr

/-- Result of one pass through the body of the watch loop. -/
inductive BodyEnd
  | merged (s : Proc)
  | fatal (e : Error)
  | panic
deriving DecidableEq, Repr

/-- The state with one more effect recorded. -/
def Proc.emit (s : Proc) (e : Effect) : Proc :=
  { s with trace := s.trace ++ [e] }

/-- The documents merged along a trace, in order. -/
def merges : List Effect → List ConfigDocument
  | [] => []
  | Effect.merge d :: t => d :: merges t
  | _ :: t => merges t

/-- The watch loops started along a trace: receiver and path of each `go` statement. -/
def spawned : List Effect → List (Option FirestoreProvider × String)
  | [] => []
  | Effect.goWatch f p :: t => (f, p) :: spawned t
  | _ :: t => spawned t

/-- The paths fetched along a trace. -/
def fetched : List Effect → List String
  | [] => []
  | Effect.get p :: t => p :: fetched t
  | _ :: t => fetched t

/-- The paths subscribed to along a trace. -/
def subscriptions : List Effect → List String
  | [] => []
  | Effect.subscribe p :: t => p :: subscriptions t
  | _ :: t => subscriptions t

/-! ## Libraries -/

/-- Go `strings.ToUpper`, on the letters `Char.toUpper` covers. -/
def ToUpper (s : String) : String :=
  ⟨s.data.map Char.toUpper⟩

/-- Go `json.Marshal(snap.Data())`. -/
def jsonMarshal (w : Libs) (d : Option ConfigDocument) : Except Error JsonData :=
  match w.marshalErr d with
  | some e => .error e
  | none => .ok ⟨d⟩

/-- Modelled from the spec: `Merge(doc)` of the Configuration Store (viper, absent from the
sources) replaces the store's document-derived view with `doc`. -/
def Merge (v : Viper) (doc : ConfigDocument) : Viper :=
  { v with config := doc }

/-- Modelled from the spec: `viper.ReadConfig` (absent from the sources) either rejects the
encoded document and leaves the store as it was, or merges the document it encodes; the text
`null` encodes the document without fields. -/
def ReadConfig (w : Libs) (v : Viper) (j : JsonData) : Except Error Viper :=
  match w.readConfigErr j with
  | some e => .error e
  | none => .ok (Merge v (j.value.getD []))

/-- Go `viper.SetConfigType`. -/
def SetConfigType (v : Viper) (t : String) : Viper :=
  { v with configType := t }

/-- Go `viper.AutomaticEnv`. -/
def AutomaticEnv (v : Viper) : Viper :=
  { v with automaticEnv := true }

/-- The string a getter renders a field value as. -/
def Value.render : Value → String
  | .str s => s
  | .bool b => if b then "true" else "false"
  | .nan => "NaN"

/-- Modelled from the spec: `GetString` of the Configuration Store (viper, absent from the
sources).  An environment variable named by the upper-cased key wins once `AutomaticEnv` is
on; otherwise the merged document's value; otherwise the empty string. -/
def GetString (env : String → Option String) (v : Viper) (key : String) : String :=
  match (if v.automaticEnv then env (ToUpper key) else none) with
  | some x => x
  | none =>
    match v.config.lookup key with
    | some x => x.render
    | none => ""

/-! ## config/providers/firestore.go -/

/-- Go `NewFirestoreProvider`: `(nil, err)` when the client cannot be made. -/
def NewFirestoreProvider (w : Libs) (projectId : String) :
    Option FirestoreProvider × Option Error :=
  match w.newClient projectId with
  | some e => (none, some e)
  | none => (some ⟨⟨projectId⟩⟩, none)

/-- Go `FirestoreProvider.ReadFirestoreConfig`.  The error of `Get` is dropped (`snap, _ :=`);
a nil receiver panics at `f.client`, a nil snapshot at `snap.Data()`. -/
def ReadFirestoreConfig (w : Libs) (f : Option FirestoreProvider) (path : String)
    (s : Proc) : Ret × Proc :=
  match f with
  | none => (.panic, s)
  | some fp =>
    let s1 := s.emit (.get path)
    match (w.docGet fp.client path).snap with
    | none => (.panic, s1)
    | some snap =>
      match jsonMarshal w snap.data with
      | .error e => (.err e, s1)
      | .ok jsonData =>
        match ReadConfig w s1.viper jsonData with
        | .error e => (.err e, s1)
        | .ok v => (.nil, ({ s1 with viper := v } : Proc).emit (.merge v.config))

/-- One pass through the body of the `for` loop of `WatchFirestoreConfig`, on what `Next`
returned. -/
def watchBody (w : Libs) (s : Proc) (r : SnapResult) : BodyEnd :=
  match r.err with
  | some e => .fatal e
  | none =>
    match r.snap with
    | none => .panic
    | some snap =>
      match jsonMarshal w snap.data with
      | .error e => .fatal e
      | .ok jsonData =>
        match ReadConfig w s.viper jsonData with
        | .error e => .fatal e
        | .ok v => .merged (({ s with viper := v } : Proc).emit (.merge v.config))

/-- The `for` loop of `WatchFirestoreConfig` on the successive answers of `Next`.  When they
run out the loop is blocked in `Next`.  `log.Fatalln` logs and exits the process. -/
def watchLoop (w : Libs) : List SnapResult → Proc → LoopEnd × Proc
  | [], s => (.waiting, s)
  | r :: rest, s =>
    match watchBody w s r with
    | .merged s1 => watchLoop w rest s1
    | .fatal e => (.exited e, s.emit (.logFatal e))
    | .panic => (.panicked, s)

/-- Go `FirestoreProvider.WatchFirestoreConfig`.  The deferred `Stop` runs when the function
unwinds, which a panic does and `log.Fatalln` (it calls `os.Exit`) does not. -/
def WatchFirestoreConfig (w : Libs) (f : Option FirestoreProvider) (path : String)
    (events : List SnapResult) (s : Proc) : LoopEnd × Proc :=
  match f with
  | none => (.panicked, s)
  | some _ =>
    match watchLoop w events (s.emit (.subscribe path)) with
    | (.panicked, s1) => (.panicked, s1.emit .stop)
    | (e, s1) => (e, s1)

/-! ## config/config.go -/

/-- Go `Options.FirestorePath`. -/
def Options.FirestorePath (co : Options) : String :=
  co.ServiceName ++ "/" ++ co.Environment

/-- Go `NewConfig`.  The error of `NewFirestoreProvider` is overwritten by the next
assignment to `err` before anything reads it. -/
def NewConfig (w : Libs) (options : Options) (s : Proc) : Ret × Proc :=
  let s1 : Proc := { s with viper := AutomaticEnv (SetConfigType s.viper "json") }
  let path := options.FirestorePath
  let fs := (NewFirestoreProvider w options.ProjectID).1
  match ReadFirestoreConfig w fs path s1 with
  | (.nil, s2) => (.nil, s2.emit (.goWatch fs path))
  | (r, s2) => (r, s2)

/-- The goroutines a trace started, each run on the events its subscription delivers. -/
def runGoroutines (w : Libs) (events : List SnapResult) :
    List (Option FirestoreProvider × String) → Proc → List LoopEnd × Proc
  | [], s => ([], s)
  | (f, p) :: rest, s =>
    let r := WatchFirestoreConfig w f p events s
    let rs := runGoroutines w events rest r.2
    (r.1 :: rs.1, rs.2)

/-- A service start: `NewConfig`, then the watch loops it started on the events delivered
afterwards.  The first component is what `NewConfig` returned to its caller. -/
def runService (w : Libs) (options : Options) (events : List SnapResult) (s : Proc) :
    Ret × List LoopEnd × Proc :=
  let r := NewConfig w options s
  let g := runGoroutines w events (spawned r.2.trace) r.2
  (r.1, g.1, g.2)

/-! ## Events of the watch loop -/

/-- The document an event carries into the store: the snapshot's fields, none for the
snapshot of a deleted document. -/
def SnapResult.doc (r : SnapResult) : ConfigDocument :=
  match r.snap with
  | some snap => snap.data.getD []
  | none => []

/-- Go `json.Marshal` encodes the snapshot. -/
def encodes (w : Libs) (snap : DocumentSnapshot) : Bool :=
  (w.marshalErr snap.data).isNone

/-- The store accepts the encoded snapshot. -/
def accepts (w : Libs) (snap : DocumentSnapshot) : Bool :=
  (w.readConfigErr ⟨snap.data⟩).isNone

/-- Go `Next` delivered a snapshot without error. -/
def SnapResult.delivered (r : SnapResult) : Bool :=
  r.err.isNone && r.snap.isSome

/-- The event is a snapshot delivered without error that encodes and that the store
accepts. -/
def applies (w : Libs) (r : SnapResult) : Bool :=
  match r.err, r.snap with
  | none, some snap => encodes w snap && accepts w snap
  | _, _ => false

/-- The event is an error of the watch loop: `Next` fails, the snapshot cannot be encoded, or
the store rejects the encoded document. -/
def failsAt (w : Libs) (r : SnapResult) : Bool :=
  match r.err, r.snap with
  | some _, _ => true
  | none, some snap => !encodes w snap || !accepts w snap
  | none, none => false

/-- The store after the documents of `events` were merged one after the other. -/
def mergeAll (v : Viper) (events : List SnapResult) : Viper :=
  events.foldl (fun v r => Merge v r.doc) v

/-- The store holds the last document merged along the trace (`v0` before any merge), and
`AutomaticEnv` is on. -/
def Consistent (v0 : ConfigDocument) (s : Proc) : Prop :=
  s.viper.automaticEnv = true ∧ s.viper.config = ((merges s.trace).getLast?).getD v0

/-! ## Concrete inputs -/

/-- A fresh process: viper with nothing set, nothing done yet. -/
def freshProc : Proc :=
  ⟨⟨"", false, []⟩, []⟩

/-- Libraries that never fail, over a store holding the documents of `docs` by path: a
missing document is reported the way Firestore does, by a snapshot without data together with
a NotFound error. -/
def storeLibs (docs : List (String × ConfigDocument)) : Libs where
  newClient := fun _ => none
  docGet := fun _ path =>
    match docs.lookup path with
    | some d => ⟨some ⟨some d⟩, none⟩
    | none => ⟨some ⟨none⟩, some "rpc error: code = NotFound"⟩
  marshalErr := fun _ => none
  readConfigErr := fun _ => none

/-- The identity of the spec's scenarios. -/
def billing : Options :=
  ⟨"acme", "billing", "staging", false⟩

/-- The libraries of `storeLibs`, with `json.Marshal` refusing a document that has a NaN
field, as `encoding/json` does. -/
def strictLibs (docs : List (String × ConfigDocument)) : Libs :=
  { storeLibs docs with
    marshalErr := fun d =>
      if (d.getD []).any (fun kv => kv.2 = Value.nan) then some "json: unsupported value: NaN"
      else none }

/-- Libraries whose Firestore client cannot be made. -/
def noClientLibs : Libs :=
  { storeLibs [] with newClient := fun _ => some "firestore: could not find credentials" }

/-- A snapshot event carrying the document `d`. -/
def snapshotOf (d : ConfigDocument) : SnapResult :=
  ⟨some ⟨some d⟩, none⟩

/-- An event where `Next` fails. -/
def nextError (e : Error) : SnapResult :=
  ⟨none, some e⟩

/-- The environment with `LOG_LEVEL=info` and nothing else. -/
def envInfo (name : String) : Option String :=
  if name = "LOG_LEVEL" then some "info" else none

/-- The environment with no variable set. -/
def noEnv (_ : String) : Option String :=
  none

/-- The document of the spec's loading scenario. -/
def debugDoc : ConfigDocument :=
  [("log_level", .str "debug"), ("postgres_port", .str "5432")]

/-- The document first loaded in the spec's replacement scenario. -/
def docA : ConfigDocument :=
  [("feature_x", .str "off"), ("other", .str "1")]

/-- The snapshot the watch delivers in the spec's replacement scenario. -/
def docB : ConfigDocument :=
  [("feature_x", .str "on")]

/-- Libraries that never fail, over a store holding `d` at `billing/staging`. -/
def billingLibs (d : ConfigDocument) : Libs :=
  storeLibs [("billing/staging", d)]

/-- The provider `NewFirestoreProvider` makes for `billing`. -/
def acme : FirestoreProvider :=
  ⟨⟨"acme"⟩⟩

/-! ## aws/s3/s3.go -/

/-- How a call ends in the goroutine that makes it: with a value, with an error, or never,
the goroutine being blocked for good. -/
inductive Outcome (α : Type)
  | ok (a : α)
  | error (e : Error)
  | blocked
deriving DecidableEq, Repr

/-- Go `manager.UploadOutput`, by the bucket and key the object went to. -/
structure UploadOutput where
  bucket : String
  key : String
deriving DecidableEq, Repr

/-- One call `filepath.Walk` makes to its callback: the path, `info.IsDir()` and the error
it passes for that path. -/
structure WalkEntry where
  path : String
  isDir : Bool
  err : Option Error
deriving DecidableEq, Repr

/-- Go `fileWalk`, a `chan string`, as the one goroutine that holds it sees it: capacity,
buffered elements, closed or not. -/
structure fileWalk where
  cap : Nat
  buf : List String
  closed : Bool
deriving DecidableEq, Repr

/-- The file system and the uploader `UploadFolder` works against. -/
structure Fs where
  /-- The calls `filepath.Walk(folder, fn)` makes while `fn` returns nil, in order: the
  folder itself first, then what lies under it. -/
  visits : String → List WalkEntry
  /-- Answer of `filepath.Rel(folder, path)`. -/
  rel : String → String → Except Error String
  /-- The error of `os.Open(path)`, if any. -/
  openErr : String → Option Error
  /-- Answer of `uploader.Upload` for a bucket, a key and the opened file's path. -/
  upload : String → String → String → Except Error UploadOutput

/-- Go `make(fileWalk)`: an unbuffered channel. -/
def makeFileWalk : fileWalk :=
  ⟨0, [], false⟩

/-- Go `f <- path` in a goroutine that is the only holder of the channel: the element is
buffered when there is room, and otherwise the send waits for a receiver that cannot come
(`none`). -/
def fileWalk.send (f : fileWalk) (path : String) : Option fileWalk :=
  if f.buf.length < f.cap then some { f with buf := f.buf ++ [path] } else none

/-- Go `fileWalk.walk`. -/
def fileWalk.walk (f : fileWalk) (path : String) (isDir : Bool) (err : Option Error) :
    Outcome fileWalk :=
  match err with
  | some e => .error e
  | none =>
    if !isDir then
      match f.send path with
      | some f1 => .ok f1
      | none => .blocked
    else .ok f

/-- Go `filepath.Walk` over the entries of a traversal: the callback is called on each in turn,
and the first error it returns ends the walk. -/
def Walk (fn : fileWalk → String → Bool → Option Error → Outcome fileWalk) :
    List WalkEntry → fileWalk → Outcome fileWalk
  | [], f => .ok f
  | e :: rest, f =>
    match fn f e.path e.isDir e.err with
    | .ok f1 => Walk fn rest f1
    | .error err => .error err
    | .blocked => .blocked

/-- The loop `for path := range walker` of `UploadFolder`, on the elements the channel
holds: when they run out the loop ends if the channel is closed and waits for good if it is
not.  The second component lists the keys uploaded so far. -/
def rangeWalker (fs : Fs) (bucketName folderPath : String) (closed : Bool) :
    List String → List UploadOutput → List String → Outcome (List UploadOutput) × List String
  | [], output, keys => (if closed then .ok output else .blocked, keys)
  | path :: rest, output, keys =>
    match fs.rel folderPath path with
    | .error e => (.error ("failed to get relative : " ++ e), keys)
    | .ok rel =>
      match fs.openErr path with
      | some e => (.error ("failed to open file : " ++ e), keys)
      | none =>
        match fs.upload bucketName rel path with
        | .error e => (.error ("failed to upload : " ++ e), keys)
        | .ok res => rangeWalker fs bucketName folderPath closed rest (output ++ [res])
            (keys ++ [rel])

/-- Go `S3.UploadFolder`: the outputs it returns (or how else it ends) and the keys it
uploaded. -/
def UploadFolder (fs : Fs) (bucketName folderPath : String) :
    Outcome (List UploadOutput) × List String :=
  match Walk fileWalk.walk (fs.visits folderPath) makeFileWalk with
  | .error e => (.error ("walk failed : " ++ e), [])
  | .blocked => (.blocked, [])
  | .ok walker => rangeWalker fs bucketName folderPath walker.closed walker.buf [] []

/-- A file system holding the folder `site` with the one file `site/index.html`, and an
uploader that always succeeds. -/
def siteFs : Fs where
  visits := fun folder =>
    if folder = "site" then [⟨"site", true, none⟩, ⟨"site/index.html", false, none⟩] else []
  rel := fun folder path =>
    if folder = "site" ∧ path = "site/index.html" then .ok "index.html" else .ok path
  openErr := fun _ => none
  upload := fun bucket key _ => .ok ⟨bucket, key⟩

/-- A file system holding the folder `empty` with nothing in it. -/
def emptyFs : Fs :=
  { siteFs with visits := fun _ => [⟨"empty", true, none⟩] }

/-! ## aws/s3/s3.go: NewS3 -/

/-- Go `S3Config`. -/
structure S3Config where
  Address : String
  Region : String
deriving DecidableEq, Repr

/-- Go `aws.Endpoint`; `aws.Endpoint{}` has every field at its zero value. -/
structure Endpoint where
  URL : String
  HostnameImmutable : Bool
  PartitionID : String
  SigningName : String
  SigningRegion : String
  SigningMethod : String
deriving DecidableEq, Repr

/-- The errors the resolver of `NewS3` returns: `&aws.EndpointNotFoundError{}`. -/
inductive ResolverError
  | EndpointNotFoundError
deriving DecidableEq, Repr

/-- The type `aws.EndpointResolverWithOptionsFunc`: service, region and the variadic
options, to an endpoint and an error. -/
abbrev EndpointResolver := String → String → List String → Endpoint × Option ResolverError

/-- The `aws.Config` that `config.LoadDefaultConfig` hands back, by what `NewS3` asks it to
hold: the region of `WithRegion` and the resolver of `WithEndpointResolverWithOptions`. -/
structure AwsConfig where
  Region : String
  EndpointResolverWithOptions : EndpointResolver

/-- Go `S3`: the client is kept by the configuration and the option it was made from; the
uploader and downloader are made from the same client. -/
structure S3 where
  cfg : AwsConfig
  UsePathStyle : Bool
  timeout : Nat

/-- Go `aws.Endpoint{}`. -/
def Endpoint.zero : Endpoint :=
  ⟨"", false, "", "", "", ""⟩

/-- The closure `customResolver` of `NewS3`, over the configuration `c`. -/
def customResolver (c : S3Config) : EndpointResolver :=
  fun _service _region _options =>
    if c.Address ≠ "" then
      ({ Endpoint.zero with PartitionID := "aws", URL := c.Address, SigningRegion := c.Region },
        none)
    else
      (Endpoint.zero, some .EndpointNotFoundError)

/-- Go `NewS3`; `loadErr` is the error of `config.LoadDefaultConfig`, if any. -/
def NewS3 (loadErr : Option Error) (c : S3Config) (timeout : Nat) : Except Error S3 :=
  match loadErr with
  | some err => .error err
  | none => .ok ⟨⟨c.Region, customResolver c⟩, true, timeout⟩

/-! ## db/db.go -/

/-- Go `zapcore.Level`. -/
inductive ZapLevel
  | DebugLevel
  | InfoLevel
  | WarnLevel
  | ErrorLevel
  | DPanicLevel
  | PanicLevel
  | FatalLevel
deriving DecidableEq, Repr

/-- A non-nil `*otelzap.SugaredLogger`, by what `Desugar().Core().Enabled(level)` answers. -/
structure SugaredLogger where
  Enabled : ZapLevel → Bool

/-- Go `logger.LogLevel` of gorm. -/
inductive LogLevel
  | Silent
  | Error
  | Warn
  | Info
deriving DecidableEq, Repr

/-- A gorm `logger.Interface`, by its log level. -/
structure GormLogger where
  level : LogLevel
deriving DecidableEq, Repr

/-- Go `gorm.Config`, by its `Logger` field; `none` is the nil of `&gorm.Config{}`, for which
gorm uses `logger.Default`. -/
structure GormConfig where
  Logger : Option GormLogger
deriving DecidableEq, Repr

/-- Go `*gorm.DB`, by what it was opened with and the plugins in use. -/
structure DB where
  dsn : String
  config : GormConfig
  plugins : List String
deriving DecidableEq, Repr

/-- The answers of the libraries `NewDBInstance` calls. -/
structure DBLibs where
  /-- The error of `gorm.Open(postgres.Open(connStr), gormConfig)`, if any. -/
  openErr : String → GormConfig → Option Error
  /-- The error of `db.Use(otelgorm.NewPlugin())`, if any. -/
  useErr : Option Error

/-- One run of `NewDBInstance`: the arguments `gorm.Open` was called with, what the function
returned, and the key/value pairs logged with `connected to database`. -/
structure DBRun where
  connStr : String
  gormConfig : GormConfig
  result : Except Error DB
  logged : List (String × String)
deriving Repr

/-- Go `logger.Default` of gorm, which logs at `Warn`. -/
def GormLogger.Default : GormLogger :=
  ⟨.Warn⟩

/-- Go `LogMode` of a gorm logger: the same logger at another level. -/
def GormLogger.LogMode (l : GormLogger) (level : LogLevel) : GormLogger :=
  { l with level := level }

/-- The arguments left over when the format is used up, as `fmt` reports them. -/
def sprintfExtra : List String → List Char
  | [] => []
  | a :: rest =>
    "%!(EXTRA ".data ++ "string=".data ++ a.data
      ++ (rest.map (fun x => ", string=".data ++ x.data)).flatten ++ [')']

/-- Go `fmt.Sprintf` on string arguments, for formats whose verbs are `%s` and `%%`, on the
characters of the format. -/
def sprintfChars : List Char → List String → List Char
  | [], args => sprintfExtra args
  | '%' :: 's' :: rest, a :: args => a.data ++ sprintfChars rest args
  | '%' :: 's' :: rest, [] => "%!s(MISSING)".data ++ sprintfChars rest []
  | '%' :: '%' :: rest, args => '%' :: sprintfChars rest args
  | ch :: rest, args => ch :: sprintfChars rest args

/-- Go `fmt.Sprintf(format, args...)` on string arguments. -/
def Sprintf (format : String) (args : List String) : String :=
  ⟨sprintfChars format.data args⟩

/-- The constant `connectionString` of the package. -/
def connectionString : String :=
  "host=%s port=%s user=%s password=%s dbname=%s sslmode=%s TimeZone=Europe/Rome"

/-- Go `NewDBInstance`, for a non-nil logger; `env` and `v` are the environment and the viper
instance `viper.GetString` reads. -/
def NewDBInstance (env : String → Option String) (v : Viper) (l : DBLibs)
    (sugaredLogger : SugaredLogger) : DBRun :=
  let connStr := Sprintf connectionString
    [GetString env v "postgres_host", GetString env v "postgres_port",
     GetString env v "postgres_user", GetString env v "postgres_password",
     GetString env v "postgres_database", GetString env v "postgres_ssl"]
  let gormConfig : GormConfig :=
    if !sugaredLogger.Enabled .DebugLevel then ⟨none⟩
    else ⟨some (GormLogger.Default.LogMode .Silent)⟩
  match l.openErr connStr gormConfig with
  | some err => ⟨connStr, gormConfig, .error err, []⟩
  | none =>
    match l.useErr with
    | some err => ⟨connStr, gormConfig, .error err, []⟩
    | none =>
      ⟨connStr, gormConfig, .ok ⟨connStr, gormConfig, ["otelgorm"]⟩,
        [("database", GetString env v "postgres_database")]⟩

/-- The viper instance after the document `d` was merged, with `AutomaticEnv` on. -/
def viperOf (d : ConfigDocument) : Viper :=
  ⟨"json", true, d⟩

/-- A document with the six settings of a database. -/
def dbDoc : ConfigDocument :=
  [("postgres_host", .str "db.local"), ("postgres_port", .str "5432"),
   ("postgres_user", .str "svc"), ("postgres_password", .str "secret"),
   ("postgres_database", .str "billing"), ("postgres_ssl", .str "disable")]

/-- Libraries with which opening the database and installing the plugin succeed. -/
def dbLibs : DBLibs :=
  ⟨fun _ _ => none, none⟩

/-- A logger at debug level: every level is enabled. -/
def debugLogger : SugaredLogger :=
  ⟨fun _ => true⟩

/-- A logger at info level: every level but debug is enabled. -/
def infoLogger : SugaredLogger :=
  ⟨fun l => l ≠ .DebugLevel⟩

/-! ## Traces -/

theorem merges_append (t u : List Effect) : merges (t ++ u) = merges t ++ merges u := by
  induction t with
  | nil => rfl
  | cons e t ih => cases e <;> simp [merges, ih]

theorem spawned_append (t u : List Effect) : spawned (t ++ u) = spawned t ++ spawned u := by
  induction t with
  | nil => rfl
  | cons e t ih => cases e <;> simp [spawned, ih]

theorem fetched_append (t u : List Effect) : fetched (t ++ u) = fetched t ++ fetched u := by
  induction t with
  | nil => rfl
  | cons e t ih => cases e <;> simp [fetched, ih]

theorem subscriptions_append (t u : List Effect) :
    subscriptions (t ++ u) = subscriptions t ++ subscriptions u := by
  induction t with
  | nil => rfl
  | cons e t ih => cases e <;> simp [subscriptions, ih]

/-! ## NewConfig -/

theorem ReadFirestoreConfig_fetched (w : Libs) (fp : FirestoreProvider) (path : String)
    (s : Proc) :
    fetched (ReadFirestoreConfig w (some fp) path s).2.trace = fetched s.trace ++ [path] := by
  unfold ReadFirestoreConfig
  simp only
  repeat' split
  all_goals simp [Proc.emit, fetched_append, fetched]

theorem watchLoop_subscriptions (w : Libs) (events : List SnapResult) (s : Proc) :
    subscriptions (watchLoop w events s).2.trace = subscriptions s.trace := by
  induction events generalizing s with
  | nil => rfl
  | cons r rest ih =>
    unfold watchLoop
    cases hb : watchBody w s r with
    | merged s1 =>
      simp only [ih]
      unfold watchBody at hb
      repeat' split at hb
      all_goals first
        | cases hb; simp [Proc.emit, subscriptions_append, subscriptions]
        | cases hb
    | fatal e => simp [Proc.emit, subscriptions_append, subscriptions]
    | panic => rfl

theorem WatchFirestoreConfig_subscriptions (w : Libs) (fp : FirestoreProvider)
    (path : String) (events : List SnapResult) (s : Proc) :
    subscriptions (WatchFirestoreConfig w (some fp) path events s).2.trace
      = subscriptions s.trace ++ [path] := by
  have h := watchLoop_subscriptions w events (s.emit (.subscribe path))
  unfold WatchFirestoreConfig
  simp only
  split
  · next s1 heq =>
    rw [heq] at h
    simpa [Proc.emit, subscriptions_append, subscriptions] using h
  · next e s1 _ heq =>
    rw [heq] at h
    simpa [Proc.emit, subscriptions_append, subscriptions] using h

/-- When the snapshot `Get` hands back is non-nil, encodes and is accepted, `NewConfig`
returns nil and starts the watch, whatever error `Get` returned with it. -/
theorem NewConfig_of_snapshot (w : Libs) (o : Options) (v : Viper) (snap : DocumentSnapshot)
    (hclient : w.newClient o.ProjectID = none)
    (hsnap : (w.docGet ⟨o.ProjectID⟩ o.FirestorePath).snap = some snap)
    (hmarshal : w.marshalErr snap.data = none)
    (hread : w.readConfigErr ⟨snap.data⟩ = none) :
    NewConfig w o ⟨v, []⟩ =
      (.nil, ⟨Merge (AutomaticEnv (SetConfigType v "json")) (snap.data.getD []),
        [.get o.FirestorePath, .merge (snap.data.getD []),
         .goWatch (some ⟨⟨o.ProjectID⟩⟩) o.FirestorePath]⟩) := by
  simp [NewConfig, NewFirestoreProvider, ReadFirestoreConfig, jsonMarshal, ReadConfig,
    Proc.emit, Merge, hclient, hsnap, hmarshal, hread]

/-- C1 (evaluation at the failing input): the store has no document at `billing/staging`,
so `Get` fails with NotFound; `NewConfig` nevertheless returns nil, merges the empty
document and starts the watch loop. -/
theorem C1_get_error_dropped :
    ((storeLibs []).docGet ⟨"acme"⟩ billing.FirestorePath).err
        = some "rpc error: code = NotFound"
      ∧ (NewConfig (storeLibs []) billing freshProc).1 = Ret.nil
      ∧ spawned (NewConfig (storeLibs []) billing freshProc).2.trace
        = [(some ⟨⟨"acme"⟩⟩, "billing/staging")]
      ∧ subscriptions (runService (storeLibs []) billing [] freshProc).2.2.trace
        = ["billing/staging"] := by
  decide

/-- C2: `FirestorePath` is the service name, a slash, the environment; `NewConfig` fetches
at exactly that path (once, when the provider could be made; a nil provider fetches nothing);
for billing and staging the path is `billing/staging`. -/
theorem C2_firestore_path (w : Libs) (o : Options) (v : Viper) :
    o.FirestorePath = o.ServiceName ++ "/" ++ o.Environment
      ∧ fetched (NewConfig w o ⟨v, []⟩).2.trace
          = (if w.newClient o.ProjectID = none
              then [o.ServiceName ++ "/" ++ o.Environment] else [])
      ∧ (Options.mk o.ProjectID "billing" "staging" o.Persistent).FirestorePath
          = "billing/staging" := by
  refine ⟨rfl, ?_, rfl⟩
  cases hc : w.newClient o.ProjectID with
  | some e =>
    simp [NewConfig, NewFirestoreProvider, ReadFirestoreConfig, hc, fetched]
  | none =>
    have h := ReadFirestoreConfig_fetched w ⟨⟨o.ProjectID⟩⟩ o.FirestorePath
      ⟨AutomaticEnv (SetConfigType v "json"), []⟩
    simp only [NewConfig, NewFirestoreProvider, hc]
    generalize ReadFirestoreConfig w (some ⟨⟨o.ProjectID⟩⟩) o.FirestorePath
      ⟨AutomaticEnv (SetConfigType v "json"), []⟩ = res at h
    obtain ⟨r, s2⟩ := res
    cases r <;> simpa [Proc.emit, fetched_append, fetched, Options.FirestorePath] using h

/-- C3: when the initial fetch and merge succeed, `NewConfig` returns nil and starts exactly
one watch loop, on the path of the fetch; the subscription that loop opens is on that path;
and what `NewConfig` returned is the same whatever the loop receives afterwards. -/
theorem C3_watch_started (w : Libs) (o : Options) (v : Viper) (snap : DocumentSnapshot)
    (hclient : w.newClient o.ProjectID = none)
    (hfetch : w.docGet ⟨o.ProjectID⟩ o.FirestorePath = ⟨some snap, none⟩)
    (hmarshal : w.marshalErr snap.data = none)
    (hread : w.readConfigErr ⟨snap.data⟩ = none) :
    (NewConfig w o ⟨v, []⟩).1 = Ret.nil
      ∧ fetched (NewConfig w o ⟨v, []⟩).2.trace = [o.FirestorePath]
      ∧ spawned (NewConfig w o ⟨v, []⟩).2.trace = [(some ⟨⟨o.ProjectID⟩⟩, o.FirestorePath)]
      ∧ ∀ events : List SnapResult,
          (runService w o events ⟨v, []⟩).1 = Ret.nil
            ∧ subscriptions (runService w o events ⟨v, []⟩).2.2.trace = [o.FirestorePath] := by
  have hsnap : (w.docGet ⟨o.ProjectID⟩ o.FirestorePath).snap = some snap := by rw [hfetch]
  have h := NewConfig_of_snapshot w o v snap hclient hsnap hmarshal hread
  refine ⟨by rw [h], by rw [h]; rfl, by rw [h]; rfl, ?_⟩
  intro events
  have hw := WatchFirestoreConfig_subscriptions w ⟨⟨o.ProjectID⟩⟩ o.FirestorePath events
    (NewConfig w o ⟨v, []⟩).2
  rw [h] at hw
  simp only [runService, h, spawned, runGoroutines]
  exact ⟨trivial, by simpa [subscriptions] using hw⟩

/-- C3 at the spec's scenario: the document exists at `billing/staging`, the fetch and the
merge succeed, one watch loop is started on that path, also when its stream closes at
once. -/
theorem C3_watch_started_witness :
    (billingLibs debugDoc).newClient billing.ProjectID = none
      ∧ (billingLibs debugDoc).docGet ⟨billing.ProjectID⟩ billing.FirestorePath
          = ⟨some ⟨some debugDoc⟩, none⟩
      ∧ (NewConfig (billingLibs debugDoc) billing freshProc).1 = Ret.nil
      ∧ spawned (NewConfig (billingLibs debugDoc) billing freshProc).2.trace
          = [(some acme, "billing/staging")]
      ∧ (runService (billingLibs debugDoc) billing [nextError "stream closed"] freshProc).1
          = Ret.nil
      ∧ subscriptions (runService (billingLibs debugDoc) billing
          [nextError "stream closed"] freshProc).2.2.trace = ["billing/staging"] :=
  have h := C3_watch_started (billingLibs debugDoc) billing freshProc.viper ⟨some debugDoc⟩
    rfl (by decide) rfl rfl
  ⟨rfl, by decide, h.1, h.2.2.1, (h.2.2.2 [nextError "stream closed"]).1,
    (h.2.2.2 [nextError "stream closed"]).2⟩

/-! ## The watch loop -/

theorem watchBody_of_applies (w : Libs) (s : Proc) (r : SnapResult)
    (h : applies w r = true) :
    watchBody w s r = .merged ⟨Merge s.viper r.doc, s.trace ++ [.merge r.doc]⟩ := by
  obtain ⟨snap, err⟩ := r
  cases err with
  | some e => simp [applies] at h
  | none =>
    cases snap with
    | none => simp [applies] at h
    | some snap =>
      simp only [applies, encodes, accepts, Bool.and_eq_true, Option.isNone_iff_eq_none] at h
      simp [watchBody, jsonMarshal, ReadConfig, Proc.emit, Merge, SnapResult.doc, h.1, h.2]

theorem watchBody_of_failsAt (w : Libs) (s : Proc) (r : SnapResult)
    (h : failsAt w r = true) : ∃ e, watchBody w s r = .fatal e := by
  obtain ⟨snap, err⟩ := r
  cases err with
  | some e => exact ⟨e, by simp [watchBody]⟩
  | none =>
    cases snap with
    | none => simp [failsAt] at h
    | some snap =>
      cases hm : w.marshalErr snap.data with
      | some e => exact ⟨e, by simp [watchBody, jsonMarshal, hm]⟩
      | none =>
        cases hr : w.readConfigErr ⟨snap.data⟩ with
        | some e => exact ⟨e, by simp [watchBody, jsonMarshal, ReadConfig, hm, hr]⟩
        | none => simp [failsAt, encodes, accepts, hm, hr] at h

/-- On a run of events that all apply, the loop merges each and then waits for the
next; on whatever follows it continues from there. -/
theorem watchLoop_append (w : Libs) (pre rest : List SnapResult) (s : Proc)
    (h : ∀ r ∈ pre, applies w r = true) :
    watchLoop w (pre ++ rest) s
      = watchLoop w rest ⟨mergeAll s.viper pre, s.trace ++ pre.map (fun r => .merge r.doc)⟩ := by
  induction pre generalizing s with
  | nil => simp [mergeAll]
  | cons r pre ih =>
    have hr : applies w r = true := h r (List.mem_cons_self _ _)
    have hpre : ∀ x ∈ pre, applies w x = true := fun x hx => h x (List.mem_cons_of_mem _ hx)
    have hih := ih ⟨Merge s.viper r.doc, s.trace ++ [.merge r.doc]⟩ hpre
    simp only [List.cons_append, watchLoop, watchBody_of_applies w s r hr]
    simpa [mergeAll] using hih

theorem watchLoop_of_applies (w : Libs) (events : List SnapResult) (s : Proc)
    (h : ∀ r ∈ events, applies w r = true) :
    watchLoop w events s
      = (.waiting, ⟨mergeAll s.viper events, s.trace ++ events.map (fun r => .merge r.doc)⟩) := by
  have := watchLoop_append w events [] s h
  simpa [watchLoop] using this

theorem merges_map_merge (events : List SnapResult) :
    merges (events.map (fun r => Effect.merge r.doc)) = events.map SnapResult.doc := by
  induction events with
  | nil => rfl
  | cons r rest ih => simp [merges, ih]

theorem mergeAll_config (v : Viper) (events : List SnapResult) :
    (mergeAll v events).config = ((events.map SnapResult.doc).getLast?).getD v.config := by
  induction events generalizing v with
  | nil => rfl
  | cons r rest ih =>
    simp only [mergeAll, List.foldl_cons] at ih ⊢
    rw [ih]
    cases rest with
    | nil => simp [Merge]
    | cons r2 rest2 =>
      cases hl : (List.map SnapResult.doc (r2 :: rest2)).getLast? with
      | none => simp at hl
      | some d =>
        simp only [List.map_cons] at hl
        simp [List.getLast?_cons_cons, hl]

theorem mergeAll_automaticEnv (v : Viper) (events : List SnapResult) :
    (mergeAll v events).automaticEnv = v.automaticEnv := by
  induction events generalizing v with
  | nil => rfl
  | cons r rest ih =>
    simp only [mergeAll, List.foldl_cons] at ih ⊢
    rw [ih]
    rfl

theorem mergeAll_append (v : Viper) (a b : List SnapResult) :
    mergeAll v (a ++ b) = mergeAll (mergeAll v a) b := by
  simp [mergeAll, List.foldl_append]

theorem WatchFirestoreConfig_of_applies (w : Libs) (fp : FirestoreProvider) (path : String)
    (events : List SnapResult) (s : Proc) (h : ∀ r ∈ events, applies w r = true) :
    WatchFirestoreConfig w (some fp) path events s
      = (.waiting, ⟨mergeAll s.viper events,
          s.trace ++ [.subscribe path] ++ events.map (fun r => .merge r.doc)⟩) := by
  simp [WatchFirestoreConfig, watchLoop_of_applies w events _ h, Proc.emit]

theorem WatchFirestoreConfig_of_failsAt (w : Libs) (fp : FirestoreProvider) (path : String)
    (pre post : List SnapResult) (bad : SnapResult) (s : Proc)
    (hpre : ∀ r ∈ pre, applies w r = true) (hbad : failsAt w bad = true) :
    ∃ e, WatchFirestoreConfig w (some fp) path (pre ++ bad :: post) s
      = (.exited e, ⟨mergeAll s.viper pre,
          s.trace ++ [.subscribe path] ++ pre.map (fun r => .merge r.doc) ++ [.logFatal e]⟩) := by
  obtain ⟨e, he⟩ := watchBody_of_failsAt w
    ⟨mergeAll s.viper pre, s.trace ++ [.subscribe path] ++ pre.map (fun r => .merge r.doc)⟩
    bad hbad
  refine ⟨e, ?_⟩
  simp only [WatchFirestoreConfig, watchLoop_append w pre (bad :: post) _ hpre, watchLoop,
    Proc.emit, he]

/-- C4: merging replaces.  After the initial load of `A` and one watch-delivered snapshot
`B` (both encoded and accepted), the store's document view is `B`, the merges were `A`
then `B`, and a key that `B` lacks reads as the empty string unless the environment sets
it. -/
theorem C4_full_replacement (w : Libs) (o : Options) (v : Viper) (A B : ConfigDocument)
    (hclient : w.newClient o.ProjectID = none)
    (hfetch : w.docGet ⟨o.ProjectID⟩ o.FirestorePath = snapshotOf A)
    (hA : applies w (snapshotOf A) = true)
    (hB : applies w (snapshotOf B) = true) :
    (NewConfig w o ⟨v, []⟩).2.viper.config = A
      ∧ (runService w o [snapshotOf B] ⟨v, []⟩).2.2.viper.config = B
      ∧ merges (runService w o [snapshotOf B] ⟨v, []⟩).2.2.trace = [A, B]
      ∧ ∀ (env : String → Option String) (k : String),
          env (ToUpper k) = none → B.lookup k = none →
            GetString env (runService w o [snapshotOf B] ⟨v, []⟩).2.2.viper k = "" := by
  have hA2 : w.marshalErr (some A) = none ∧ w.readConfigErr ⟨some A⟩ = none := by
    simpa [applies, snapshotOf, encodes, accepts] using hA
  have hsnap : (w.docGet ⟨o.ProjectID⟩ o.FirestorePath).snap = some ⟨some A⟩ := by
    rw [hfetch]; rfl
  have h := NewConfig_of_snapshot w o v ⟨some A⟩ hclient hsnap hA2.1 hA2.2
  have hev : ∀ r ∈ [snapshotOf B], applies w r = true := by
    intro r hr
    simp only [List.mem_singleton] at hr
    rw [hr]; exact hB
  have hrun : runService w o [snapshotOf B] ⟨v, []⟩
      = (.nil, [.waiting], ⟨Merge (Merge (AutomaticEnv (SetConfigType v "json")) A) B,
          [.get o.FirestorePath, .merge A, .goWatch (some ⟨⟨o.ProjectID⟩⟩) o.FirestorePath,
           .subscribe o.FirestorePath, .merge B]⟩) := by
    simp only [runService, h, spawned, runGoroutines,
      WatchFirestoreConfig_of_applies w _ _ _ _ hev]
    simp [mergeAll, snapshotOf, SnapResult.doc]
  refine ⟨by rw [h]; rfl, by rw [hrun]; rfl, by rw [hrun]; rfl, ?_⟩
  intro env k henv hk
  rw [hrun]
  simp [GetString, Merge, AutomaticEnv, henv, hk]

/-- C4 at the spec's scenario: after `docA` is loaded and `docB` delivered, the view is
`docB`, `feature_x` reads `on` and `other` reads as the empty string. -/
theorem C4_full_replacement_witness :
    (billingLibs docA).docGet ⟨billing.ProjectID⟩ billing.FirestorePath = snapshotOf docA
      ∧ applies (billingLibs docA) (snapshotOf docA) = true
      ∧ applies (billingLibs docA) (snapshotOf docB) = true
      ∧ (runService (billingLibs docA) billing [snapshotOf docB] freshProc).2.2.viper.config
          = docB
      ∧ GetString noEnv
          (runService (billingLibs docA) billing [snapshotOf docB] freshProc).2.2.viper
          "feature_x" = "on"
      ∧ GetString noEnv
          (runService (billingLibs docA) billing [snapshotOf docB] freshProc).2.2.viper
          "other" = "" :=
  have h := C4_full_replacement (billingLibs docA) billing freshProc.viper docA docB
    rfl (by decide) (by decide) (by decide)
  ⟨by decide, by decide, by decide, h.2.1, by decide, h.2.2.2 noEnv "other" rfl (by decide)⟩

/-! ## Precedence of the environment -/

theorem consistent_emit (v0 : ConfigDocument) (s : Proc) (e : Effect)
    (h : Consistent v0 s) (he : merges [e] = []) : Consistent v0 (s.emit e) := by
  obtain ⟨h1, h2⟩ := h
  exact ⟨h1, by simp [Proc.emit, merges_append, he, h2]⟩

theorem consistent_merge (v0 : ConfigDocument) (s : Proc) (v1 : Viper)
    (hv : v1.automaticEnv = true) :
    Consistent v0 (({ s with viper := v1 } : Proc).emit (.merge v1.config)) := by
  refine ⟨hv, ?_⟩
  simp [Proc.emit, merges_append, merges]

theorem ReadConfig_automaticEnv (w : Libs) (v v1 : Viper) (j : JsonData)
    (h : ReadConfig w v j = .ok v1) : v1.automaticEnv = v.automaticEnv := by
  unfold ReadConfig at h
  split at h
  · cases h
  · cases h; rfl

theorem ReadFirestoreConfig_consistent (w : Libs) (f : Option FirestoreProvider)
    (path : String) (v0 : ConfigDocument) (s : Proc) (h : Consistent v0 s) :
    Consistent v0 (ReadFirestoreConfig w f path s).2 := by
  have hget : Consistent v0 (s.emit (.get path)) := consistent_emit v0 s _ h rfl
  unfold ReadFirestoreConfig
  split
  · exact h
  · simp only
    split
    · exact hget
    · split
      · exact hget
      · split
        · exact hget
        · next v1 hv1 =>
          exact consistent_merge v0 _ v1 ((ReadConfig_automaticEnv w _ v1 _ hv1).trans hget.1)

theorem watchBody_consistent (w : Libs) (v0 : ConfigDocument) (s s1 : Proc) (r : SnapResult)
    (h : Consistent v0 s) (hb : watchBody w s r = .merged s1) : Consistent v0 s1 := by
  unfold watchBody at hb
  repeat' split at hb
  all_goals first
    | (next v1 hv1 =>
        cases hb
        exact consistent_merge v0 _ v1 ((ReadConfig_automaticEnv w _ v1 _ hv1).trans h.1))
    | cases hb

theorem watchLoop_consistent (w : Libs) (v0 : ConfigDocument) (events : List SnapResult)
    (s : Proc) (h : Consistent v0 s) : Consistent v0 (watchLoop w events s).2 := by
  induction events generalizing s with
  | nil => exact h
  | cons r rest ih =>
    unfold watchLoop
    cases hb : watchBody w s r with
    | merged s1 => exact ih s1 (watchBody_consistent w v0 s s1 r h hb)
    | fatal e => exact consistent_emit v0 s _ h rfl
    | panic => exact h

theorem WatchFirestoreConfig_consistent (w : Libs) (f : Option FirestoreProvider)
    (path : String) (v0 : ConfigDocument) (events : List SnapResult) (s : Proc)
    (h : Consistent v0 s) : Consistent v0 (WatchFirestoreConfig w f path events s).2 := by
  have hl := watchLoop_consistent w v0 events (s.emit (.subscribe path))
    (consistent_emit v0 s _ h rfl)
  unfold WatchFirestoreConfig
  cases f with
  | none => exact h
  | some fp =>
    simp only
    generalize watchLoop w events (s.emit (.subscribe path)) = res at hl
    obtain ⟨e, s1⟩ := res
    cases e with
    | waiting => exact hl
    | exited e => exact hl
    | panicked => exact consistent_emit v0 s1 _ hl rfl

theorem runGoroutines_consistent (w : Libs) (v0 : ConfigDocument) (events : List SnapResult)
    (gs : List (Option FirestoreProvider × String)) (s : Proc) (h : Consistent v0 s) :
    Consistent v0 (runGoroutines w events gs s).2 := by
  induction gs generalizing s with
  | nil => exact h
  | cons g rest ih =>
    obtain ⟨f, p⟩ := g
    exact ih _ (WatchFirestoreConfig_consistent w f p v0 events s h)

theorem NewConfig_consistent (w : Libs) (o : Options) (v : Viper) :
    Consistent v.config (NewConfig w o ⟨v, []⟩).2 := by
  have h0 : Consistent v.config ⟨AutomaticEnv (SetConfigType v "json"), []⟩ := ⟨rfl, rfl⟩
  have h := ReadFirestoreConfig_consistent w (NewFirestoreProvider w o.ProjectID).1
    o.FirestorePath v.config _ h0
  unfold NewConfig
  simp only
  generalize ReadFirestoreConfig w (NewFirestoreProvider w o.ProjectID).1 o.FirestorePath
    ⟨AutomaticEnv (SetConfigType v "json"), []⟩ = res at h
  obtain ⟨r, s2⟩ := res
  cases r with
  | nil => exact consistent_emit v.config s2 _ h rfl
  | err e => exact h
  | panic => exact h

/-- C5: once `NewConfig` has run, whatever the libraries answered and whatever events the
watch loop received, `GetString k` is the value of the environment variable named by the
upper-cased key when that variable is set, and otherwise the value of `k` in the most
recently merged document (the empty string when it has none).  With the document
`log_level = debug`, `GetString "log_level"` is `info` under `LOG_LEVEL=info` and `debug`
without it. -/
theorem C5_environment_wins (w : Libs) (o : Options) (v : Viper) (events : List SnapResult)
    (env : String → Option String) (k : String) :
    GetString env (runService w o events ⟨v, []⟩).2.2.viper k
        = (match env (ToUpper k) with
          | some x => x
          | none =>
            match (((merges (runService w o events ⟨v, []⟩).2.2.trace).getLast?).getD
                v.config).lookup k with
            | some x => x.render
            | none => "")
      ∧ GetString envInfo (NewConfig
          (billingLibs debugDoc) billing
          freshProc).2.viper "log_level" = "info"
      ∧ GetString noEnv (NewConfig
          (billingLibs debugDoc) billing
          freshProc).2.viper "log_level" = "debug" := by
  refine ⟨?_, by decide, by decide⟩
  have h : Consistent v.config (runService w o events ⟨v, []⟩).2.2 :=
    runGoroutines_consistent w v.config events _ _ (NewConfig_consistent w o v)
  obtain ⟨h1, h2⟩ := h
  simp only [GetString, h1, h2, if_true]

/-! ## Order and errors of the watch loop -/

theorem applies_of_mem_take (w : Libs) (events : List SnapResult) (n : Nat)
    (h : ∀ r ∈ events, applies w r = true) : ∀ r ∈ events.take n, applies w r = true :=
  fun r hr => h r (List.mem_of_mem_take hr)

/-- C6 (as stated, refuted): a snapshot with a NaN field is delivered by the subscription
without error, `json.Marshal` cannot encode it, and the loop exits the process without
merging it. -/
theorem C6_unencodable_snapshot_not_merged :
    (∀ r ∈ [snapshotOf [("ratio", Value.nan)]], r.delivered = true)
      ∧ WatchFirestoreConfig (strictLibs []) (some acme) "billing/staging"
          [snapshotOf [("ratio", Value.nan)]] freshProc
        = (.exited "json: unsupported value: NaN",
            ⟨freshProc.viper, [.subscribe "billing/staging",
              .logFatal "json: unsupported value: NaN"]⟩)
      ∧ merges (WatchFirestoreConfig (strictLibs []) (some acme) "billing/staging"
          [snapshotOf [("ratio", Value.nan)]] freshProc).2.trace
        ≠ [[("ratio", Value.nan)]] := by
  decide

/-- C6 (amended): for every finite sequence of snapshots delivered without error, each of
which encodes and is accepted by the store, the loop applies exactly one merge per snapshot,
in delivery order, and then waits for the next; after the i-th delivery the store's document
view is the i-th snapshot. -/
theorem C6_one_merge_per_snapshot (w : Libs) (fp : FirestoreProvider) (path : String)
    (events : List SnapResult) (s : Proc) (h : ∀ r ∈ events, applies w r = true) :
    (WatchFirestoreConfig w (some fp) path events s).1 = LoopEnd.waiting
      ∧ merges (WatchFirestoreConfig w (some fp) path events s).2.trace
          = merges s.trace ++ events.map SnapResult.doc
      ∧ ∀ (i : Nat) (hi : i < events.length),
          (WatchFirestoreConfig w (some fp) path (events.take (i + 1)) s).2.viper.config
            = (events.get ⟨i, hi⟩).doc := by
  refine ⟨?_, ?_, ?_⟩
  · rw [WatchFirestoreConfig_of_applies w fp path events s h]
  · rw [WatchFirestoreConfig_of_applies w fp path events s h]
    simp [merges_append, merges_map_merge, merges]
  · intro i hi
    rw [WatchFirestoreConfig_of_applies w fp path _ s (applies_of_mem_take w events _ h)]
    have ht : events.take (i + 1) = events.take i ++ [events.get ⟨i, hi⟩] := by
      rw [List.take_succ]
      simp [List.getElem?_eq_getElem hi]
    simp only [ht, mergeAll_append]
    rfl

/-- C6 (amended) at a concrete run: `docA` then `docB` are delivered; two merges in that
order, the view is `docA` after the first delivery and `docB` after the second. -/
theorem C6_one_merge_per_snapshot_witness :
    (∀ r ∈ [snapshotOf docA, snapshotOf docB], applies (storeLibs []) r = true)
      ∧ (WatchFirestoreConfig (storeLibs []) (some acme) "billing/staging"
          [snapshotOf docA, snapshotOf docB] freshProc).1 = LoopEnd.waiting
      ∧ merges (WatchFirestoreConfig (storeLibs []) (some acme) "billing/staging"
          [snapshotOf docA, snapshotOf docB] freshProc).2.trace = [docA, docB]
      ∧ (WatchFirestoreConfig (storeLibs []) (some acme) "billing/staging"
          [snapshotOf docA] freshProc).2.viper.config = docA
      ∧ (WatchFirestoreConfig (storeLibs []) (some acme) "billing/staging"
          [snapshotOf docA, snapshotOf docB] freshProc).2.viper.config = docB :=
  have h := C6_one_merge_per_snapshot (storeLibs []) acme "billing/staging"
    [snapshotOf docA, snapshotOf docB] freshProc (by decide)
  ⟨by decide, h.1, h.2.1, h.2.2 0 (by decide), h.2.2 1 (by decide)⟩

/-- C7: every error of the watch loop is terminal.  At the first event where `Next` fails,
the snapshot cannot be encoded or the store rejects it, the loop exits the process; the
merges applied are exactly those of the events before it, the store is the one the last of
them left, and nothing that follows is looked at. -/
theorem C7_errors_terminal (w : Libs) (fp : FirestoreProvider) (path : String)
    (pre post : List SnapResult) (bad : SnapResult) (s : Proc)
    (hpre : ∀ r ∈ pre, applies w r = true) (hbad : failsAt w bad = true) :
    (∃ e, (WatchFirestoreConfig w (some fp) path (pre ++ bad :: post) s).1 = LoopEnd.exited e)
      ∧ merges (WatchFirestoreConfig w (some fp) path (pre ++ bad :: post) s).2.trace
          = merges s.trace ++ pre.map SnapResult.doc
      ∧ (WatchFirestoreConfig w (some fp) path (pre ++ bad :: post) s).2.viper
          = (WatchFirestoreConfig w (some fp) path pre s).2.viper
      ∧ (WatchFirestoreConfig w (some fp) path (pre ++ bad :: post) s).2.viper.config
          = ((pre.map SnapResult.doc).getLast?).getD s.viper.config
      ∧ WatchFirestoreConfig w (some fp) path (pre ++ bad :: post) s
          = WatchFirestoreConfig w (some fp) path (pre ++ [bad]) s := by
  obtain ⟨e, he⟩ := WatchFirestoreConfig_of_failsAt w fp path pre post bad s hpre hbad
  obtain ⟨e2, he2⟩ := WatchFirestoreConfig_of_failsAt w fp path pre [] bad s hpre hbad
  have hee : e = e2 := by
    obtain ⟨e3, he3⟩ := watchBody_of_failsAt w
      ⟨mergeAll s.viper pre, s.trace ++ [.subscribe path] ++ pre.map (fun r => .merge r.doc)⟩
      bad hbad
    have a1 := he
    have a2 := he2
    simp only [WatchFirestoreConfig, watchLoop_append w pre _ _ hpre, watchLoop,
      Proc.emit, he3] at a1 a2
    have b1 := congrArg Prod.fst a1
    have b2 := congrArg Prod.fst a2
    simp only [LoopEnd.exited.injEq] at b1 b2
    rw [← b1, ← b2]
  refine ⟨⟨e, by rw [he]⟩, ?_, ?_, ?_, ?_⟩
  · rw [he]
    simp [merges_append, merges_map_merge, merges]
  · rw [he, WatchFirestoreConfig_of_applies w fp path pre s hpre]
  · rw [he]
    exact mergeAll_config s.viper pre
  · rw [he, he2, hee]

/-- C7 at a concrete run: `docA` is merged, then the stream closes, then `docB` arrives
and is never looked at; the process exits with the view `docA`. -/
theorem C7_errors_terminal_witness :
    (∀ r ∈ [snapshotOf docA], applies (storeLibs []) r = true)
      ∧ failsAt (storeLibs []) (nextError "stream closed") = true
      ∧ (∃ e, (WatchFirestoreConfig (storeLibs []) (some acme) "billing/staging"
          [snapshotOf docA, nextError "stream closed", snapshotOf docB] freshProc).1
            = LoopEnd.exited e)
      ∧ merges (WatchFirestoreConfig (storeLibs []) (some acme) "billing/staging"
          [snapshotOf docA, nextError "stream closed", snapshotOf docB] freshProc).2.trace
          = [docA]
      ∧ (WatchFirestoreConfig (storeLibs []) (some acme) "billing/staging"
          [snapshotOf docA, nextError "stream closed", snapshotOf docB] freshProc).2.viper.config
          = docA :=
  have h := C7_errors_terminal (storeLibs []) acme "billing/staging"
    [snapshotOf docA] [snapshotOf docB] (nextError "stream closed") freshProc
    (by decide) (by decide)
  ⟨by decide, by decide, h.1, h.2.1, h.2.2.2.1⟩

theorem watchBody_merged_trace (w : Libs) (s s1 : Proc) (r : SnapResult)
    (hb : watchBody w s r = .merged s1) : ∃ d, s1.trace = s.trace ++ [.merge d] := by
  unfold watchBody at hb
  repeat' split at hb
  all_goals first
    | (next v1 hv1 =>
        cases hb
        exact ⟨v1.config, rfl⟩)
    | cases hb

theorem watchLoop_stop (w : Libs) (events : List SnapResult) (s : Proc)
    (h : Effect.stop ∈ (watchLoop w events s).2.trace) : Effect.stop ∈ s.trace := by
  induction events generalizing s with
  | nil => exact h
  | cons r rest ih =>
    unfold watchLoop at h
    cases hb : watchBody w s r with
    | merged s1 =>
      rw [hb] at h
      obtain ⟨d, hd⟩ := watchBody_merged_trace w s s1 r hb
      have h1 := ih s1 h
      rw [hd] at h1
      simpa using h1
    | fatal e =>
      rw [hb] at h
      simpa [Proc.emit] using h
    | panic =>
      rw [hb] at h
      exact h

/-- Whenever the watch loop ends the process, on any events and from any state, `Stop` was
not called by it. -/
theorem WatchFirestoreConfig_exited_without_stop (w : Libs) (f : Option FirestoreProvider)
    (path : String) (events : List SnapResult) (s : Proc) (e : Error)
    (hs : Effect.stop ∉ s.trace)
    (h : (WatchFirestoreConfig w f path events s).1 = LoopEnd.exited e) :
    Effect.stop ∉ (WatchFirestoreConfig w f path events s).2.trace := by
  intro hmem
  have hl := watchLoop_stop w events (s.emit (.subscribe path))
  unfold WatchFirestoreConfig at h hmem
  cases f with
  | none => simp at h
  | some fp =>
    simp only at h hmem
    generalize watchLoop w events (s.emit (.subscribe path)) = res at hl h hmem
    obtain ⟨e1, s1⟩ := res
    cases e1 with
    | waiting => simp at h
    | panicked => simp at h
    | exited e2 =>
      have := hl hmem
      simp [Proc.emit] at this
      exact hs this

/-- When the Firestore client cannot be made, `NewConfig` panics, whatever the options. -/
theorem NewConfig_nil_provider (w : Libs) (o : Options) (s : Proc) (e : Error)
    (h : w.newClient o.ProjectID = some e) :
    NewConfig w o s = (Ret.panic, ⟨AutomaticEnv (SetConfigType s.viper "json"), s.trace⟩) := by
  simp [NewConfig, NewFirestoreProvider, ReadFirestoreConfig, h]

/-- C8 (evaluation at the failing input): the first `Next` fails; the loop logs, the
process exits, and the trace holds the subscription and the fatal log but no `Stop`. -/
theorem C8_exit_without_stop :
    WatchFirestoreConfig (storeLibs []) (some acme) "billing/staging"
        [nextError "rpc error: code = Unavailable"] freshProc
      = (.exited "rpc error: code = Unavailable",
          ⟨freshProc.viper, [.subscribe "billing/staging",
            .logFatal "rpc error: code = Unavailable"]⟩)
      ∧ Effect.stop ∉ (WatchFirestoreConfig (storeLibs []) (some acme) "billing/staging"
          [nextError "rpc error: code = Unavailable"] freshProc).2.trace := by
  decide

/-- C9 (evaluation at the failing input): the Firestore client cannot be made, so
`NewFirestoreProvider` returns a nil provider and an error; `NewConfig` calls
`ReadFirestoreConfig` on the nil provider and panics instead of returning the error. -/
theorem C9_nil_provider_panics :
    NewFirestoreProvider noClientLibs billing.ProjectID
        = (none, some "firestore: could not find credentials")
      ∧ ReadFirestoreConfig noClientLibs none billing.FirestorePath
          ⟨AutomaticEnv (SetConfigType freshProc.viper "json"), []⟩
        = (Ret.panic, ⟨AutomaticEnv (SetConfigType freshProc.viper "json"), []⟩)
      ∧ NewConfig noClientLibs billing freshProc
        = (Ret.panic, ⟨AutomaticEnv (SetConfigType freshProc.viper "json"), []⟩)
      ∧ ∀ e, (NewConfig noClientLibs billing freshProc).1 ≠ Ret.err e := by
  refine ⟨by decide, by decide, by decide, ?_⟩
  intro e h
  have h2 : (NewConfig noClientLibs billing freshProc).1 = Ret.panic := by decide
  rw [h2] at h
  cases h

/-! ## UploadFolder -/

theorem Walk_unbuffered (entries : List WalkEntry) (f : fileWalk)
    (h : Walk fileWalk.walk entries makeFileWalk = .ok f) : f = makeFileWalk := by
  induction entries with
  | nil =>
    simp only [Walk] at h
    cases h; rfl
  | cons e rest ih =>
    obtain ⟨path, isDir, err⟩ := e
    cases err with
    | some x => simp [Walk, fileWalk.walk] at h
    | none =>
      cases isDir with
      | true =>
        simp only [Walk, fileWalk.walk] at h
        exact ih (by simpa using h)
      | false => simp [Walk, fileWalk.walk, fileWalk.send, makeFileWalk] at h

/-- The function `UploadFolder` never returns outputs and never uploads: either the walk fails, or the
goroutine blocks, in the callback's send or in the `range` over the channel nobody
closes. -/
theorem UploadFolder_never_returns (fs : Fs) (bucketName folderPath : String) :
    (∀ out, (UploadFolder fs bucketName folderPath).1 ≠ .ok out)
      ∧ (UploadFolder fs bucketName folderPath).2 = [] := by
  unfold UploadFolder
  cases h : Walk fileWalk.walk (fs.visits folderPath) makeFileWalk with
  | error e => exact ⟨fun out hc => (by cases hc), rfl⟩
  | blocked => exact ⟨fun out hc => (by cases hc), rfl⟩
  | ok walker =>
    rw [Walk_unbuffered _ _ h]
    exact ⟨fun out hc => (by simp [rangeWalker, makeFileWalk] at hc), rfl⟩

/-- C10 (evaluation at the failing input): for the folder `site` holding the one file
`site/index.html` the walk finds no error and the uploader would succeed, yet `UploadFolder`
returns nothing and uploads nothing: the send in `walk` blocks for good.  A folder without
files blocks as well, in the `range` over the channel. -/
theorem C10_upload_folder_blocks :
    UploadFolder siteFs "bucket" "site" = (Outcome.blocked, [])
      ∧ Walk fileWalk.walk (siteFs.visits "site") makeFileWalk = Outcome.blocked
      ∧ UploadFolder emptyFs "bucket" "empty" = (Outcome.blocked, [])
      ∧ Walk fileWalk.walk (emptyFs.visits "empty") makeFileWalk = Outcome.ok makeFileWalk := by
  decide

/-! ## NewS3 -/

/-- C11: the resolver `NewS3` installs looks at the configured address only.  With a
non-empty address it returns the endpoint of partition `aws`, that URL and the configured
signing region, without error; with an empty address it returns the zero endpoint and
`EndpointNotFoundError`; the service, region and options it is called with change nothing.
When `LoadDefaultConfig` succeeds, that resolver is the one the client's configuration
holds. -/
theorem C11_resolver_address_only (c : S3Config) (timeout : Nat)
    (service region service2 region2 : String) (options options2 : List String) :
    (c.Address ≠ "" →
        customResolver c service region options
          = (⟨c.Address, false, "aws", "", c.Region, ""⟩, none))
      ∧ (c.Address = "" →
        customResolver c service region options
          = (Endpoint.zero, some ResolverError.EndpointNotFoundError))
      ∧ customResolver c service region options = customResolver c service2 region2 options2
      ∧ ∃ s, NewS3 none c timeout = .ok s
          ∧ s.cfg.EndpointResolverWithOptions = customResolver c
          ∧ s.cfg.Region = c.Region := by
  refine ⟨?_, ?_, rfl, ⟨_, rfl, rfl, rfl⟩⟩
  · intro h
    simp [customResolver, Endpoint.zero, h]
  · intro h
    simp [customResolver, h]

/-- C11 at two configurations: a local address, and none. -/
theorem C11_resolver_address_only_witness :
    customResolver ⟨"http://localhost:9000", "eu-west-1"⟩ "S3" "us-east-1" []
        = (⟨"http://localhost:9000", false, "aws", "", "eu-west-1", ""⟩, none)
      ∧ customResolver ⟨"", "eu-west-1"⟩ "S3" "us-east-1" []
        = (Endpoint.zero, some ResolverError.EndpointNotFoundError)
      ∧ customResolver ⟨"http://localhost:9000", "eu-west-1"⟩ "S3" "us-east-1" []
        = customResolver ⟨"http://localhost:9000", "eu-west-1"⟩ "DynamoDB" "ap-south-1"
            ["option"] :=
  ⟨(C11_resolver_address_only ⟨"http://localhost:9000", "eu-west-1"⟩ 30
      "S3" "us-east-1" "DynamoDB" "ap-south-1" [] ["option"]).1 (by decide),
    (C11_resolver_address_only ⟨"", "eu-west-1"⟩ 30
      "S3" "us-east-1" "DynamoDB" "ap-south-1" [] ["option"]).2.1 rfl,
    (C11_resolver_address_only ⟨"http://localhost:9000", "eu-west-1"⟩ 30
      "S3" "us-east-1" "DynamoDB" "ap-south-1" [] ["option"]).2.2.1⟩

/-! ## NewDBInstance -/

theorem Sprintf_connectionString (a b c d e f : String) :
    Sprintf connectionString [a, b, c, d, e, f]
      = "host=" ++ a ++ " port=" ++ b ++ " user=" ++ c ++ " password=" ++ d
          ++ " dbname=" ++ e ++ " sslmode=" ++ f ++ " TimeZone=Europe/Rome" := by
  apply String.ext
  simp [Sprintf, connectionString, sprintfChars, sprintfExtra, String.data_append]

theorem NewDBInstance_connStr (env : String → Option String) (v : Viper) (l : DBLibs)
    (lg : SugaredLogger) :
    (NewDBInstance env v l lg).connStr
      = Sprintf connectionString
          [GetString env v "postgres_host", GetString env v "postgres_port",
           GetString env v "postgres_user", GetString env v "postgres_password",
           GetString env v "postgres_database", GetString env v "postgres_ssl"] := by
  unfold NewDBInstance
  simp only
  split
  · rfl
  · split <;> rfl

theorem NewDBInstance_gormConfig (env : String → Option String) (v : Viper) (l : DBLibs)
    (lg : SugaredLogger) :
    (NewDBInstance env v l lg).gormConfig
      = (if !lg.Enabled .DebugLevel then ⟨none⟩
          else ⟨some (GormLogger.Default.LogMode .Silent)⟩) := by
  unfold NewDBInstance
  simp only
  split
  · rfl
  · split <;> rfl

theorem NewDBInstance_result (env : String → Option String) (v : Viper) (l : DBLibs)
    (lg : SugaredLogger) (db : DB) (h : (NewDBInstance env v l lg).result = .ok db) :
    db.dsn = (NewDBInstance env v l lg).connStr
      ∧ db.config = (NewDBInstance env v l lg).gormConfig := by
  unfold NewDBInstance at h ⊢
  simp only at h ⊢
  split at h
  · cases h
  · split at h
    · cases h
    · cases h
      exact ⟨rfl, rfl⟩

/-- C12: `NewDBInstance` picks the gorm logger from the supplied logger alone.  The
configuration `gorm.Open` gets carries the default logger in `Silent` mode exactly when the
supplied logger has the debug level enabled, and is the default `gorm.Config` exactly when
it has not; the environment, the configuration values and the libraries change nothing of
it.  The connection string is the fixed format filled, in order, with the values of
`postgres_host`, `postgres_port`, `postgres_user`, `postgres_password`, `postgres_database`
and `postgres_ssl`; a database that is returned was opened with that string and that
configuration. -/
theorem C12_gorm_logger_from_level (env env2 : String → Option String) (v v2 : Viper)
    (l l2 : DBLibs) (lg : SugaredLogger) :
    ((NewDBInstance env v l lg).gormConfig = ⟨some ⟨LogLevel.Silent⟩⟩
        ↔ lg.Enabled .DebugLevel = true)
      ∧ ((NewDBInstance env v l lg).gormConfig = ⟨none⟩ ↔ lg.Enabled .DebugLevel = false)
      ∧ (NewDBInstance env2 v2 l2 lg).gormConfig = (NewDBInstance env v l lg).gormConfig
      ∧ (NewDBInstance env v l lg).connStr
          = "host=" ++ GetString env v "postgres_host"
            ++ " port=" ++ GetString env v "postgres_port"
            ++ " user=" ++ GetString env v "postgres_user"
            ++ " password=" ++ GetString env v "postgres_password"
            ++ " dbname=" ++ GetString env v "postgres_database"
            ++ " sslmode=" ++ GetString env v "postgres_ssl"
            ++ " TimeZone=Europe/Rome"
      ∧ ∀ db, (NewDBInstance env v l lg).result = .ok db →
          db.dsn = (NewDBInstance env v l lg).connStr
            ∧ db.config = (NewDBInstance env v l lg).gormConfig := by
  refine ⟨?_, ?_, ?_, ?_, fun db h => NewDBInstance_result env v l lg db h⟩
  · rw [NewDBInstance_gormConfig]
    cases lg.Enabled .DebugLevel <;> simp [GormLogger.LogMode, GormLogger.Default]
  · rw [NewDBInstance_gormConfig]
    cases lg.Enabled .DebugLevel <;> simp
  · rw [NewDBInstance_gormConfig, NewDBInstance_gormConfig]
  · rw [NewDBInstance_connStr, Sprintf_connectionString]

/-- C12 at two loggers over the same settings: a debug logger gets the `Silent` gorm
logger, an info logger the default configuration, and both the same connection string. -/
theorem C12_gorm_logger_from_level_witness :
    debugLogger.Enabled .DebugLevel = true
      ∧ (NewDBInstance noEnv (viperOf dbDoc) dbLibs debugLogger).gormConfig
          = ⟨some ⟨LogLevel.Silent⟩⟩
      ∧ infoLogger.Enabled .DebugLevel = false
      ∧ (NewDBInstance noEnv (viperOf dbDoc) dbLibs infoLogger).gormConfig = ⟨none⟩
      ∧ (NewDBInstance noEnv (viperOf dbDoc) dbLibs infoLogger).connStr
          = "host=db.local port=5432 user=svc password=secret dbname=billing sslmode=disable TimeZone=Europe/Rome" :=
  ⟨rfl,
    (C12_gorm_logger_from_level noEnv noEnv (viperOf dbDoc) (viperOf dbDoc) dbLibs dbLibs
      debugLogger).1.2 rfl,
    by decide,
    (C12_gorm_logger_from_level noEnv noEnv (viperOf dbDoc) (viperOf dbDoc) dbLibs dbLibs
      infoLogger).2.1.2 (by decide),
    by decide⟩

end GoToolkit
